import Mathlib

/-!
# Verification of the `usestable` stable-object engine

Shallow embedding of `src/packages/usestable/lib/main.ts` (the first module
copy, lines 1–388, which the claims cite; the second copy's `shallowCompare`,
lines 487–509, is embedded separately for the refinement claim).

Modelling conventions:
* JavaScript values are modelled by the inductive `JSVal`.  Heap objects
  (dates, regexes, arrays, records, functions) carry an identity `tag`;
  two object terms denote the same heap object exactly when they are equal
  as terms, so JavaScript `===` is structural equality `beqVal`.
  Distinct instances are written with distinct tags.
* Numbers are `Int` (no claim involves floats or `NaN`);
  regexes are represented by their `toString` value.
* Duck-typed method-identity checks of the source
  (`a.getTime === dateGetTimeMethod`, `a.exec === regexpExecMethod`,
  `a.slice === arraySliceMethod`) hold exactly for the corresponding
  constructors; a plain record spoofing those prototype methods is not
  representable, and `jsIndex` does not expose prototype methods.
* The per-key `Map` cache and the backing record are association lists with
  first-match lookup; `Map.set`/property writes are modelled by shadowing.
-/

/-- A JavaScript value, as far as the library observes it. -/
inductive JSVal : Type where
  | undef
  | null
  | bool (b : Bool)
  | num (n : Int)
  | str (s : String)
  | date (tag : Nat) (time : Int)
  | regex (tag : Nat) (src : String)
  | arr (tag : Nat) (elems : List JSVal)
  | obj (tag : Nat) (fields : List (String × JSVal))
  | fn (tag : Nat) (fid : Nat)
  | wrapperFn (tag : Nat) (key : String)
deriving Repr

mutual

/-- JavaScript `===` on modelled values: primitive equality for primitives,
object identity (equality of terms, in particular of identity tags) for
objects. -/
def beqVal : JSVal → JSVal → Bool
  | JSVal.undef, JSVal.undef => true
  | .null, .null => true
  | .bool a, .bool b => a == b
  | .num a, .num b => a == b
  | .str a, .str b => a == b
  | .date t1 x, .date t2 y => t1 == t2 && x == y
  | .regex t1 x, .regex t2 y => t1 == t2 && x == y
  | .arr t1 es1, .arr t2 es2 => t1 == t2 && beqList es1 es2
  | .obj t1 fs1, .obj t2 fs2 => t1 == t2 && beqFields fs1 fs2
  | .fn t1 f1, .fn t2 f2 => t1 == t2 && f1 == f2
  | .wrapperFn t1 k1, .wrapperFn t2 k2 => t1 == t2 && k1 == k2
  | _, _ => false

/-- Pointwise `beqVal` on element lists. -/
def beqList : List JSVal → List JSVal → Bool
  | [], [] => true
  | x :: xs, y :: ys => beqVal x y && beqList xs ys
  | _, _ => false

/-- Pointwise `beqVal` on field lists. -/
def beqFields : List (String × JSVal) → List (String × JSVal) → Bool
  | [], [] => true
  | (k1, v1) :: xs, (k2, v2) :: ys => k1 == k2 && beqVal v1 v2 && beqFields xs ys
  | _, _ => false

end

mutual

theorem beqVal_iff : ∀ a b, beqVal a b = true ↔ a = b
  | JSVal.undef, b => by cases b <;> simp [beqVal]
  | .null, b => by cases b <;> simp [beqVal]
  | .bool x, b => by cases b <;> simp [beqVal]
  | .num x, b => by cases b <;> simp [beqVal]
  | .str x, b => by cases b <;> simp [beqVal]
  | .date t x, b => by cases b <;> simp [beqVal]
  | .regex t x, b => by cases b <;> simp [beqVal]
  | .arr t es, b => by
      cases b <;> simp [beqVal]
      rename_i t2 es2
      rw [beqList_iff es es2]
      tauto
  | .obj t fs, b => by
      cases b <;> simp [beqVal]
      rename_i t2 fs2
      rw [beqFields_iff fs fs2]
      tauto
  | .fn t f, b => by cases b <;> simp [beqVal]
  | .wrapperFn t k, b => by cases b <;> simp [beqVal]

theorem beqList_iff : ∀ xs ys, beqList xs ys = true ↔ xs = ys
  | [], ys => by cases ys <;> simp [beqList]
  | x :: xs, ys => by
      cases ys with
      | nil => simp [beqList]
      | cons y ys =>
          simp [beqList]
          rw [beqVal_iff x y, beqList_iff xs ys]

theorem beqFields_iff : ∀ xs ys, beqFields xs ys = true ↔ xs = ys
  | [], ys => by cases ys <;> simp [beqFields]
  | (k, v) :: xs, ys => by
      cases ys with
      | nil => simp [beqFields]
      | cons y ys =>
          obtain ⟨k2, v2⟩ := y
          simp [beqFields]
          rw [beqVal_iff v v2, beqFields_iff xs ys]

end

instance : DecidableEq JSVal := fun a b => decidable_of_iff _ (beqVal_iff a b)

theorem beqVal_refl (a : JSVal) : beqVal a a = true := (beqVal_iff a a).2 rfl

theorem beqVal_symm (a b : JSVal) : beqVal a b = beqVal b a := by
  by_cases h : a = b
  · subst h; rfl
  · have h1 : beqVal a b = false := by
      cases hh : beqVal a b
      · rfl
      · exact absurd ((beqVal_iff a b).1 hh) h
    have h2 : beqVal b a = false := by
      cases hh : beqVal b a
      · rfl
      · exact absurd ((beqVal_iff b a).1 hh).symm h
    rw [h1, h2]

theorem beqVal_eq_false_of_ne {a b : JSVal} (h : a ≠ b) : beqVal a b = false := by
  cases hh : beqVal a b
  · rfl
  · exact absurd ((beqVal_iff a b).1 hh) h

/-- Symmetry of `==` on a type with decidable (lawful) equality. -/
theorem lawfulBeq_comm {α : Type} [DecidableEq α] [BEq α] [LawfulBEq α] (a b : α) :
    (a == b) = (b == a) := by
  by_cases h : a = b
  · subst h; rfl
  · have h1 : (a == b) = false := beq_eq_false_iff_ne.2 h
    have h2 : (b == a) = false := beq_eq_false_iff_ne.2 (Ne.symm h)
    rw [h1, h2]

/-- JavaScript truthiness: `undefined`, `null`, `false`, `0` and `""` are
falsy, everything else (in particular every object) is truthy. -/
def truthy : JSVal → Bool
  | JSVal.undef => false
  | .null => false
  | .bool b => b
  | .num n => !(n == 0)
  | .str s => !(s == "")
  | _ => true

/-- Check `typeof v === "object"` (true for `null` and all non-function objects). -/
def typeofObject : JSVal → Bool
  | .null => true
  | .date _ _ => true
  | .regex _ _ => true
  | .arr _ _ => true
  | .obj _ _ => true
  | _ => false

/-- Check `typeof v === "function"`. -/
def isFunctionV : JSVal → Bool
  | .fn _ _ => true
  | .wrapperFn _ _ => true
  | _ => false

/-- Check `v.slice === arraySliceMethod`: the duck-typed array detection. -/
def isArrayLike : JSVal → Bool
  | .arr _ _ => true
  | _ => false

/-- First-match association-list lookup; `JSVal.undef` when absent
(JavaScript property read / `Map.get` of a missing key). -/
def lookupD (l : List (String × JSVal)) (k : String) : JSVal :=
  match l.find? (fun kv => kv.1 == k) with
  | some kv => kv.2
  | none => JSVal.undef

/-- Model of `Object.keys`: own enumerable property names (empty for primitives,
dates, regexes and functions; indices for arrays and strings). -/
def jsKeys : JSVal → List String
  | .obj _ fs => fs.map (fun kv => kv.1)
  | .arr _ es => (List.range es.length).map (fun i => toString i)
  | .str s => (List.range s.length).map (fun i => toString i)
  | _ => []

/-- Model of the property read `v[k]` as the comparators use it. -/
def jsIndex : JSVal → String → JSVal
  | .obj _ fs, k => lookupD fs k
  | .arr _ es, k =>
      if k == "length" then .num es.length
      else
        match k.toNat? with
        | some i => es.getD i JSVal.undef
        | none => JSVal.undef
  | .str s, k =>
      if k == "length" then .num s.length
      else
        match k.toNat? with
        | some i => if i < s.length then .str (String.mk [s.data.getD i ' ']) else JSVal.undef
        | none => JSVal.undef
  | _, _ => JSVal.undef

/-- Model of `new Set(Object.keys(a).concat(Object.keys(b)))`, as a duplicate-free
key list (iteration order is irrelevant: the keys are only conjoined over). -/
def keyUnion (a b : JSVal) : List String := (jsKeys a ++ jsKeys b).dedup

/-- Source function `defaultCompare(a, b, objectCompare?)` (main.ts lines 110–130):
strict equality, then the falsy checks, then — when both are objects —
the date fast path, the regex fast path, and finally the optional
`objectCompare` callback. -/
def defaultCompareGen (objectCompare : Option (JSVal → JSVal → Bool)) (a b : JSVal) : Bool :=
  if beqVal a b then true
  else if !truthy a && truthy b then false
  else if truthy a && !truthy b then false
  else if typeofObject a && typeofObject b then
    match a with
    | .date _ x => (match b with | .date _ y => x == y | _ => false)
    | .regex _ x => (match b with | .regex _ y => x == y | _ => false)
    | _ =>
        match objectCompare with
        | some oc => oc a b
        | none => false
  else false

/-- Source function `defaultCompare` called with two arguments (no `objectCompare`). -/
def defaultCompare (a b : JSVal) : Bool := defaultCompareGen none a b

/-- The `objectCompare` closure inside `shallowCompare`
(main.ts lines 144–162): array path with length check and pairwise
`valueCompare`, otherwise the union-of-keys record path. -/
def shallowObjectCompare (valueCompare : JSVal → JSVal → Bool) (a b : JSVal) : Bool :=
  match a with
  | .arr _ es1 =>
      (match b with
       | .arr _ es2 =>
           if es1.length != es2.length then false
           else (es1.zip es2).all (fun p => valueCompare p.1 p.2)
       | _ => false)
  | _ => (keyUnion a b).all (fun k => valueCompare (jsIndex a k) (jsIndex b k))

/-- Source function `shallowCompare(a, b)` with the default `valueCompare = defaultCompare`
(main.ts lines 139–164). -/
def shallowCompare (a b : JSVal) : Bool :=
  defaultCompareGen (some (shallowObjectCompare defaultCompare)) a b

theorem sizeOf_lookupD_lt (fs : List (String × JSVal)) (k : String) :
    sizeOf (lookupD fs k) < 1 + sizeOf fs := by
  unfold lookupD
  cases h : fs.find? (fun kv => kv.1 == k) with
  | none =>
      have h0 : 0 < sizeOf fs := by cases fs <;> simp
      simp
      omega
  | some kv =>
      have hmem : kv ∈ fs := List.mem_of_find?_eq_some h
      have hlt : sizeOf kv < sizeOf fs := List.sizeOf_lt_of_mem hmem
      obtain ⟨k1, v1⟩ := kv
      simp at hlt ⊢
      omega

/-- Source function `deepCompare(a, b) = shallowCompare(a, b, deepCompare)`
(main.ts lines 172–174), unfolded one level so the recursion is visible. -/
def deepCompare (a b : JSVal) : Bool :=
  if beqVal a b then true
  else if !truthy a && truthy b then false
  else if truthy a && !truthy b then false
  else if typeofObject a && typeofObject b then
    match a with
    | .date _ x => (match b with | .date _ y => x == y | _ => false)
    | .regex _ x => (match b with | .regex _ y => x == y | _ => false)
    | .arr _ es1 =>
        (match b with
         | .arr _ es2 =>
             if es1.length != es2.length then false
             else (es1.zip es2).attach.all (fun p => deepCompare p.1.1 p.1.2)
         | _ => false)
    | .obj t fs =>
        (keyUnion (.obj t fs) b).all
          (fun k => deepCompare (jsIndex (.obj t fs) k) (jsIndex b k))
    | _ => false
  else false
termination_by sizeOf a
decreasing_by
  · have hmem := p.2
    have h1 : p.1.1 ∈ es1 := (List.of_mem_zip hmem).1
    have h2 : sizeOf p.1.1 < sizeOf es1 := List.sizeOf_lt_of_mem h1
    simp
    omega
  · have h := sizeOf_lookupD_lt fs k
    simp [jsIndex]
    omega

/-- Check for values on which member access (`v.slice`) or `Object.keys(v)`
throws a `TypeError`. -/
def isNullOrUndef : JSVal → Bool
  | .null => true
  | JSVal.undef => true
  | _ => false

/-- Source function `shallowCompare` of the second module copy
(main.ts lines 487–509) with the default `valueCompare = defaultCompare`
(the two copies' `defaultCompare`s are textually identical, so the same
embedding is reused).  Unlike the first copy it does not wrap the body in
`defaultCompare`; `none` models a thrown `TypeError` (`a.slice`, `b.slice`
or `Object.keys(b)` on `null`/`undefined`). -/
def shallowCompareV2 (a b : JSVal) : Option Bool :=
  if isNullOrUndef a then none
  else if isArrayLike a then
    if isNullOrUndef b then none
    else if !isArrayLike b then some false
    else
      match a, b with
      | .arr _ es1, .arr _ es2 =>
          some (if es1.length != es2.length then false
                else (es1.zip es2).all (fun p => defaultCompare p.1 p.2))
      | _, _ => some false
  else
    if isNullOrUndef b then none
    else some ((keyUnion a b).all (fun k => defaultCompare (jsIndex a k) (jsIndex b k)))

/-- A value of the source type `CompareOption`: a mode name or a custom
compare function ("strict" | "shallow" | "deep" | CompareFn). -/
inductive CompareOpt where
  | strict
  | shallow
  | deep
  | custom (f : JSVal → JSVal → Bool)

/-- Source function `createCompareFn(option?)` (main.ts lines 198–206):
a custom function is used as-is; `"deep"`/`"shallow"` select the deep and
shallow comparators; anything else (including `"strict"` and `undefined`)
selects `defaultCompare`. -/
def createCompareFn : Option CompareOpt → (JSVal → JSVal → Bool)
  | some (.custom f) => f
  | some .deep => deepCompare
  | some .shallow => fun a b => shallowCompare a b
  | some .strict => fun a b => defaultCompare a b
  | none => fun a b => defaultCompare a b

/-- A value of the per-key entry type `true | CompareOption`. -/
inductive PropMode where
  | tru
  | mode (m : CompareOpt)

/-- A value of the source type `StableProps`:
`"*" | (keyof T)[] | { [name]: true | CompareOption }`. -/
inductive StablePropsV where
  | all
  | list (ks : List String)
  | map (m : List (String × PropMode))

/-- Lookup `props[p]` in the map form (`undefined` when absent). -/
def lookupPM (m : List (String × PropMode)) (k : String) : Option PropMode :=
  (m.find? (fun kv => kv.1 == k)).map (fun kv => kv.2)

/-- Source function `createComparerFactory(props, mode)` (main.ts lines
208–219): the comparator-resolution function.  `"*"` assigns the mode
comparator to every key; a key list assigns it to listed keys and
`undefined` (bypass) to the rest; a per-key map feeds
`mode === true ? "strict" : mode` into `createCompareFn` — so a key absent
from the map gets `createCompareFn(undefined) = defaultCompare`,
not a bypass. -/
def createComparerFactory (props : StablePropsV) (mode : Option CompareOpt) :
    String → Option (JSVal → JSVal → Bool) :=
  let comparer := createCompareFn mode
  match props with
  | .all => fun _ => some comparer
  | .list ks => fun p => if ks.contains p then some comparer else none
  | .map m => fun p =>
      some (createCompareFn
        (match lookupPM m p with
         | some .tru => some .strict
         | some (.mode o) => some o
         | none => none))

/-- The `refs` record of `createStableObject` (main.ts lines 222–230).
The declared field is `getCompareFnFromProp`; `update` `Object.assign`s a
field named `getComparer` instead (line 285), which nothing ever reads —
it is kept here to expose that dead store.  The `options` field is omitted:
it is written but never read in this copy. -/
structure Refs where
  object : List (String × JSVal)
  getCompareFnFromProp : String → Option (JSVal → JSVal → Bool)
  getComparer : Option (String → Option (JSVal → JSVal → Bool))

/-- An options argument `{ props?, compare? }`. -/
structure OptionsV where
  props : Option StablePropsV
  compare : Option CompareOpt

/-- The full state owned by one `createStableObject` instance: `refs`, the
per-key `cache` `Map`, the hidden proxy `target` (the `{}` passed to
`new Proxy` — it receives writes because the handler has no `set` trap),
the construction flag `isReactProps`, and a freshness counter used to give
newly created wrapper functions distinct identities. -/
structure StableState where
  refs : Refs
  cache : List (String × JSVal)
  target : List (String × JSVal)
  isReactProps : Bool
  fresh : Nat

/-- Source function `createStableObject(isReactProps = false)`
(main.ts lines 221–231): initial state, with `getCompareFnFromProp`
resolved from `createComparerFactory("*")`. -/
def createStableObject (isReactProps : Bool) : StableState :=
  { refs :=
      { object := []
        getCompareFnFromProp := createComparerFactory .all none
        getComparer := none }
    cache := []
    target := []
    isReactProps := isReactProps
    fresh := 0 }

/-- The returned `update(object, { props = "*", compare } = {})`
(main.ts lines 282–288): replaces `refs.object` wholesale and stores
`createComparerFactory(props, compare)` under the field name `getComparer`.
`refs.getCompareFnFromProp` — the field the `get` trap consults — is left
unchanged, exactly as in the source. -/
def update (st : StableState) (object : List (String × JSVal)) (opts : OptionsV) : StableState :=
  { st with refs :=
      { st.refs with
          object := object
          getComparer := some (createComparerFactory (opts.props.getD .all) opts.compare) } }

/-- Check `p === "key" || p === "ref" || (typeof p === "string" && p[0] === "_")`. -/
def firstCharUnderscore (p : String) : Bool :=
  match p.data with
  | [] => false
  | c :: _ => c == '_'

/-- The proxy `get` trap (main.ts lines 235–270): react-props bypass for
`"key"`/`"ref"`/underscore keys, comparator resolution via
`refs.getCompareFnFromProp`, bypass when no comparator, the stable-function
branch, and the compare-then-cache branch.  Returns the value delivered to
the reader together with the successor state. -/
def getProp (st : StableState) (p : String) : JSVal × StableState :=
  let currentValue := lookupD st.refs.object p
  if st.isReactProps && (p == "key" || p == "ref" || firstCharUnderscore p) then
    (currentValue, st)
  else
    match st.refs.getCompareFnFromProp p with
    | none => (currentValue, st)
    | some compareFn =>
        let cachedValue := lookupD st.cache p
        if isFunctionV currentValue then
          if !isFunctionV cachedValue then
            (JSVal.wrapperFn st.fresh p,
             { st with
                 cache := (p, JSVal.wrapperFn st.fresh p) :: st.cache
                 fresh := st.fresh + 1 })
          else (cachedValue, st)
        else
          if compareFn cachedValue currentValue then (cachedValue, st)
          else (currentValue, { st with cache := (p, currentValue) :: st.cache })

/-- A property write through the proxy.  The handler defines no `set` trap
(main.ts lines 234–277), so the default `[[Set]]` forwards to the hidden
plain target and always succeeds; the boolean is the success of the write
(`true`: no error is ever raised). -/
def setProp (st : StableState) (p : String) (v : JSVal) : StableState × Bool :=
  ({ st with target := (p, v) :: st.target }, true)

/-- Invocation of a value obtained from the proxy, against the stable
object's current state.  A wrapper created by `createStableFunction`
(main.ts lines 185–196) runs `getCurrent() = refs.object[p]` at call time
and applies it to the forwarded arguments (the `console.warn` diagnostic
does not affect the result and is not modelled); a plain function value
applies directly; calling a non-function throws (`none`).  `sem` interprets
function bodies by their `fid`. -/
def invoke (sem : Nat → List JSVal → JSVal) (st : StableState) (v : JSVal)
    (args : List JSVal) : Option JSVal :=
  match v with
  | .wrapperFn _ p =>
      (match lookupD st.refs.object p with
       | .fn _ fid => some (sem fid args)
       | _ => none)
  | .fn _ fid => some (sem fid args)
  | _ => none

/-- The keys of the object literal returned by `createStableObject`
(main.ts lines 280–289): `{ proxy, update }`. -/
def stableObjectApiKeys : List String := ["proxy", "update"]

/-- Helper for reasoning about `defaultCompare`: the date/regex fast paths
as one symmetric-looking predicate. -/
def sameTimeOrSrc : JSVal → JSVal → Bool
  | .date _ x, .date _ y => x == y
  | .regex _ x, .regex _ y => x == y
  | _, _ => false

/-- Normal form of the two-argument `defaultCompare`: strict equality, or
both truthy with matching date/regex fast-path data. -/
theorem defaultCompare_norm (a b : JSVal) :
    defaultCompare a b = (beqVal a b || (truthy a && truthy b && sameTimeOrSrc a b)) := by
  cases hb : beqVal a b <;> cases a <;> cases b <;>
    simp_all [beqVal, truthy, typeofObject, sameTimeOrSrc, defaultCompare, defaultCompareGen]

theorem sameTimeOrSrc_symm (a b : JSVal) : sameTimeOrSrc a b = sameTimeOrSrc b a := by
  cases a <;> cases b <;> simp [sameTimeOrSrc] <;> exact eq_comm

/-- The two-argument `defaultCompare` (the `valueCompare` used inside
`shallowCompare`) is commutative. -/
theorem defaultCompare_symm (a b : JSVal) : defaultCompare a b = defaultCompare b a := by
  rw [defaultCompare_norm, defaultCompare_norm, beqVal_symm, sameTimeOrSrc_symm,
    Bool.and_comm (truthy a) (truthy b)]

theorem all_mem_congr {α : Type} {u1 u2 : List α} {f g : α → Bool}
    (hmem : ∀ x, x ∈ u1 ↔ x ∈ u2) (hfg : ∀ x, f x = g x) : u1.all f = u2.all g := by
  have hf : f = g := funext hfg
  subst hf
  cases h1 : u1.all f <;> cases h2 : u2.all f <;> try rfl
  · rw [List.all_eq_true] at h2
    have : u1.all f = true := List.all_eq_true.2 (fun x hx => h2 x ((hmem x).1 hx))
    rw [h1] at this
    cases this
  · rw [List.all_eq_true] at h1
    have : u2.all f = true := List.all_eq_true.2 (fun x hx => h1 x ((hmem x).2 hx))
    rw [h2] at this
    cases this

theorem zip_all_swap {α : Type} (f : α → α → Bool) :
    ∀ xs ys : List α,
      (xs.zip ys).all (fun p => f p.1 p.2) = (ys.zip xs).all (fun p => f p.2 p.1)
  | [], ys => by cases ys <;> rfl
  | x :: xs, [] => rfl
  | x :: xs, y :: ys => by
      simp only [List.zip_cons_cons, List.all_cons]
      rw [zip_all_swap f xs ys]

theorem zip_self_all_dc : ∀ es : List JSVal,
    (es.zip es).all (fun p => defaultCompare p.1 p.2) = true
  | [] => rfl
  | x :: es => by
      simp only [List.zip_cons_cons, List.all_cons]
      rw [zip_self_all_dc es]
      have : defaultCompare x x = true := by
        unfold defaultCompare defaultCompareGen
        rw [beqVal_refl]
        rfl
      rw [this]
      rfl

theorem defaultCompare_refl (a : JSVal) : defaultCompare a a = true := by
  unfold defaultCompare defaultCompareGen
  rw [beqVal_refl]
  rfl

/-- Top-level shape class of a value (used to state for which pairs
`shallowCompare` is commutative). -/
def shapeClass : JSVal → Nat
  | .null => 0
  | .date _ _ => 1
  | .regex _ _ => 2
  | .arr _ _ => 3
  | .obj _ _ => 4
  | _ => 5

theorem shallowCompare_eq_beq_of_nonobject (a b : JSVal)
    (h : typeofObject a = false ∨ typeofObject b = false) :
    shallowCompare a b = beqVal a b := by
  unfold shallowCompare defaultCompareGen
  cases hb : beqVal a b
  · have hcond : (typeofObject a && typeofObject b) = false := by
      rcases h with h | h <;> simp [h]
    rw [hcond]
    simp
  · simp

theorem shallowCompare_date_date (t1 t2 : Nat) (x y : Int) :
    shallowCompare (.date t1 x) (.date t2 y) = (x == y) := by
  unfold shallowCompare defaultCompareGen
  cases hb : beqVal (.date t1 x) (.date t2 y)
  · rfl
  · simp only [beqVal, Bool.and_eq_true, beq_iff_eq] at hb
    simp [hb.2]

theorem shallowCompare_regex_regex (t1 t2 : Nat) (x y : String) :
    shallowCompare (.regex t1 x) (.regex t2 y) = (x == y) := by
  unfold shallowCompare defaultCompareGen
  cases hb : beqVal (.regex t1 x) (.regex t2 y)
  · rfl
  · simp only [beqVal, Bool.and_eq_true, beq_iff_eq] at hb
    simp [hb.2]

theorem shallowCompare_arr_arr (t1 t2 : Nat) (es1 es2 : List JSVal) :
    shallowCompare (.arr t1 es1) (.arr t2 es2) =
      (if es1.length != es2.length then false
       else (es1.zip es2).all (fun p => defaultCompare p.1 p.2)) := by
  unfold shallowCompare defaultCompareGen
  cases hb : beqVal (.arr t1 es1) (.arr t2 es2)
  · rfl
  · simp only [beqVal, Bool.and_eq_true, beq_iff_eq] at hb
    have hes : es1 = es2 := (beqList_iff es1 es2).1 hb.2
    subst hes
    simp [zip_self_all_dc]

theorem shallowCompare_obj_obj (t1 t2 : Nat) (f1 f2 : List (String × JSVal)) :
    shallowCompare (.obj t1 f1) (.obj t2 f2) =
      (keyUnion (.obj t1 f1) (.obj t2 f2)).all
        (fun k => defaultCompare (jsIndex (.obj t1 f1) k) (jsIndex (.obj t2 f2) k)) := by
  unfold shallowCompare defaultCompareGen
  cases hb : beqVal (.obj t1 f1) (.obj t2 f2)
  · rfl
  · simp only [beqVal, Bool.and_eq_true, beq_iff_eq] at hb
    have hfs : f1 = f2 := (beqFields_iff f1 f2).1 hb.2
    subst hfs
    simp only [if_pos]
    rw [Bool.true_eq, List.all_eq_true]
    intro k _
    exact defaultCompare_refl _

/-- Commutativity of `shallowCompare` on pairs whose operands have the same
top-level shape class, or where at least one operand is not a
`typeof`-object. -/
theorem shallowCompare_comm_cond (a b : JSVal)
    (h : shapeClass a = shapeClass b ∨ typeofObject a = false ∨ typeofObject b = false) :
    shallowCompare a b = shallowCompare b a := by
  by_cases heq : a = b
  · subst heq; rfl
  rcases h with hclass | hno | hno
  · by_cases hobj : typeofObject a = true ∧ typeofObject b = true
    · obtain ⟨hoa, hob⟩ := hobj
      cases a <;> cases b <;>
        simp only [typeofObject, shapeClass, Bool.false_eq_true] at hclass hoa hob <;>
        first
        | rfl
        | omega
        | (rw [shallowCompare_date_date, shallowCompare_date_date, lawfulBeq_comm])
        | (rw [shallowCompare_regex_regex, shallowCompare_regex_regex, lawfulBeq_comm])
        | (rw [shallowCompare_arr_arr, shallowCompare_arr_arr]
           rename_i ta esa tb esb
           rw [zip_all_swap defaultCompare esa esb]
           have hfun : (fun p : JSVal × JSVal => defaultCompare p.2 p.1)
               = (fun p : JSVal × JSVal => defaultCompare p.1 p.2) :=
             funext (fun p => defaultCompare_symm p.2 p.1)
           rw [hfun]
           by_cases hl : esa.length = esb.length
           · simp [hl]
           · have h1 : (esa.length != esb.length) = true := by simp [hl]
             have h2 : (esb.length != esa.length) = true := by simp [Ne.symm hl]
             rw [h1, h2])
        | (rw [shallowCompare_obj_obj, shallowCompare_obj_obj]
           exact all_mem_congr
             (fun x => by
               simp only [keyUnion, List.mem_dedup, List.mem_append]
               tauto)
             (fun k => defaultCompare_symm _ _))
    · have hno : typeofObject a = false ∨ typeofObject b = false := by
        cases ha : typeofObject a
        · exact Or.inl rfl
        · cases hbb : typeofObject b
          · exact Or.inr rfl
          · exact absurd ⟨ha, hbb⟩ hobj
      rw [shallowCompare_eq_beq_of_nonobject a b hno,
        shallowCompare_eq_beq_of_nonobject b a (hno.symm), beqVal_symm]
  · rw [shallowCompare_eq_beq_of_nonobject a b (Or.inl hno),
      shallowCompare_eq_beq_of_nonobject b a (Or.inr hno), beqVal_symm]
  · rw [shallowCompare_eq_beq_of_nonobject a b (Or.inr hno),
      shallowCompare_eq_beq_of_nonobject b a (Or.inl hno), beqVal_symm]

/-- Check for the truthy non-date non-regex object classes (arrays and
plain records) on which the two `shallowCompare` copies coincide. -/
def isArrOrObj : JSVal → Bool
  | .arr _ _ => true
  | .obj _ _ => true
  | _ => false

/-- On pairs of arrays/plain records the second copy of `shallowCompare`
neither throws nor disagrees with the first copy. -/
theorem shallowCompareV2_agrees (a b : JSVal)
    (ha : isArrOrObj a = true) (hb : isArrOrObj b = true) :
    shallowCompareV2 a b = some (shallowCompare a b) := by
  by_cases heq : a = b
  · subst heq
    have h1 : shallowCompare a a = true := by
      unfold shallowCompare defaultCompareGen
      rw [beqVal_refl]
      rfl
    rw [h1]
    cases a <;> simp_all [isArrOrObj]
    · rename_i t es
      unfold shallowCompareV2
      simp [isNullOrUndef, isArrayLike, zip_self_all_dc]
    · rename_i t fs
      unfold shallowCompareV2
      simp only [isNullOrUndef, isArrayLike, Bool.false_eq_true, if_false,
        Bool.not_false, if_true, Option.some.injEq]
      rw [List.all_eq_true]
      intro k _
      exact defaultCompare_refl _
  · have hne := beqVal_eq_false_of_ne heq
    cases a <;> simp_all [isArrOrObj] <;> cases b <;> simp_all [isArrOrObj] <;>
      first
      | rfl
      | (rw [shallowCompare_arr_arr]; rfl)
      | (rw [shallowCompare_obj_obj]; rfl)

theorem lookupD_cons_self (l : List (String × JSVal)) (k : String) (v : JSVal) :
    lookupD ((k, v) :: l) k = v := by
  unfold lookupD
  simp [List.find?_cons]

theorem lookupD_cons_ne (l : List (String × JSVal)) (k k' : String) (v : JSVal)
    (h : k' ≠ k) : lookupD ((k, v) :: l) k' = lookupD l k' := by
  unfold lookupD
  rw [List.find?_cons_of_neg]
  simp [Ne.symm h]

theorem defaultCompare_undef_right (a : JSVal) :
    defaultCompare a JSVal.undef = beqVal a JSVal.undef := by
  unfold defaultCompare defaultCompareGen
  cases hb : beqVal a JSVal.undef
  · simp [truthy, typeofObject]
  · rfl

/-- The value a read delivers depends only on `refs`, `cache`,
`isReactProps` and `fresh` — never on the hidden proxy `target`. -/
theorem getProp_fst_congr (s1 s2 : StableState) (q : String)
    (hr : s1.refs = s2.refs) (hc : s1.cache = s2.cache)
    (hi : s1.isReactProps = s2.isReactProps) (hf : s1.fresh = s2.fresh) :
    (getProp s1 q).1 = (getProp s2 q).1 := by
  obtain ⟨r1, c1, t1, i1, f1⟩ := s1
  obtain ⟨r2, c2, t2, i2, f2⟩ := s2
  simp only at hr hc hi hf
  subst hr
  subst hc
  subst hi
  subst hf
  unfold getProp
  by_cases hg : (i1 && (q == "key" || q == "ref" || firstCharUnderscore q)) = true
  · simp only [hg, if_pos]
  · simp only [Bool.not_eq_true] at hg
    simp only [hg, Bool.false_eq_true, if_false]
    cases hcf : r1.getCompareFnFromProp q
    · rfl
    · rename_i c
      by_cases hfn : isFunctionV (lookupD r1.object q) = true
      · by_cases hfc : isFunctionV (lookupD c1 q) = true
        · simp [hfn, hfc]
        · simp only [Bool.not_eq_true] at hfc
          simp [hfn, hfc]
      · simp only [Bool.not_eq_true] at hfn
        by_cases hdc : c (lookupD c1 q) (lookupD r1.object q) = true
        · simp [hfn, hdc]
        · simp only [Bool.not_eq_true] at hdc
          simp [hfn, hdc]

/-- After any `update`, reading a key that is absent from the new backing
record yields `undefined` (full replacement: previous values do not leak
through), for every reachable state (all reachable states keep the
construction-time resolution, by `update`'s dead store). -/
theorem getProp_after_update_absent (st : StableState) (object : List (String × JSVal))
    (opts : OptionsV) (p : String)
    (hres : st.refs.getCompareFnFromProp = createComparerFactory .all none)
    (habs : lookupD object p = JSVal.undef) :
    (getProp (update st object opts) p).1 = JSVal.undef := by
  unfold getProp
  have h1 : (update st object opts).refs.object = object := rfl
  have h2 : (update st object opts).refs.getCompareFnFromProp
      = createComparerFactory .all none := hres
  rw [h1, habs, h2]
  have h4 : createComparerFactory .all none p = some (fun a b => defaultCompare a b) := rfl
  rw [h4]
  by_cases hg : ((update st object opts).isReactProps
      && (p == "key" || p == "ref" || firstCharUnderscore p)) = true
  · simp [hg]
  · simp only [Bool.not_eq_true] at hg
    simp only [hg, Bool.false_eq_true, if_false]
    by_cases hdc : defaultCompare (lookupD (update st object opts).cache p) JSVal.undef = true
    · have hbeq : beqVal (lookupD (update st object opts).cache p) JSVal.undef = true := by
        rw [← defaultCompare_undef_right]
        exact hdc
      have hcu : lookupD (update st object opts).cache p = JSVal.undef := (beqVal_iff _ _).1 hbeq
      simp [hdc, hcu, isFunctionV, defaultCompare_refl]
    · simp only [Bool.not_eq_true] at hdc
      simp [hdc, isFunctionV]

/-- Reads of `"key"`, `"ref"` and underscore-prefixed keys bypass
comparator resolution and caching — when the view was created with
`isReactProps = true` (the `stable` component wrapper). -/
theorem getProp_react_bypass (st : StableState) (p : String)
    (hreact : st.isReactProps = true)
    (hkey : (p == "key" || p == "ref" || firstCharUnderscore p) = true) :
    getProp st p = (lookupD st.refs.object p, st) := by
  unfold getProp
  rw [hreact, hkey]
  simp

theorem getProp_first_function_read (st : StableState) (p : String)
    (c : JSVal → JSVal → Bool)
    (hreact : st.isReactProps = false)
    (hstable : st.refs.getCompareFnFromProp p = some c)
    (hfun1 : isFunctionV (lookupD st.refs.object p) = true)
    (hcache : isFunctionV (lookupD st.cache p) = false) :
    getProp st p
      = (JSVal.wrapperFn st.fresh p,
         { st with
             cache := (p, JSVal.wrapperFn st.fresh p) :: st.cache
             fresh := st.fresh + 1 }) := by
  unfold getProp
  rw [hreact, hstable]
  simp [hfun1, hcache]

theorem getProp_cached_function_read (st : StableState) (p : String)
    (c : JSVal → JSVal → Bool)
    (hreact : st.isReactProps = false)
    (hstable : st.refs.getCompareFnFromProp p = some c)
    (hfun : isFunctionV (lookupD st.refs.object p) = true)
    (hcache : isFunctionV (lookupD st.cache p) = true) :
    getProp st p = (lookupD st.cache p, st) := by
  unfold getProp
  rw [hreact, hstable]
  simp [hfun, hcache]

/-- C1: the claim states that after `update(newObject, config)` every
subsequent read resolves its comparator via the resolution derived from
that `config`.  The code violates this: `update` stores the recomputed
resolution under the field name `getComparer`, which no read consults,
while the `get` trap keeps consulting `refs.getCompareFnFromProp`, frozen
at the construction-time `"*"` resolution.  Concretely: after an update
with `props: ["x"]`, the config-derived resolution bypasses `"y"`
(`none`), yet the consulted resolution is still the initial one, the read
of `"y"` consults a comparator and even creates a cache entry. -/
theorem c1_update_resolution_dead_store :
    (update (createStableObject false) [("y", JSVal.num 1)]
        ⟨some (.list ["x"]), none⟩).refs.getCompareFnFromProp
      = (createStableObject false).refs.getCompareFnFromProp
    ∧ createComparerFactory (.list ["x"]) none "y" = none
    ∧ ((update (createStableObject false) [("y", JSVal.num 1)]
          ⟨some (.list ["x"]), none⟩).refs.getCompareFnFromProp "y").isSome = true
    ∧ (getProp (update (createStableObject false) [("y", JSVal.num 1)]
          ⟨some (.list ["x"]), none⟩) "y").2.cache = [("y", JSVal.num 1)] :=
  ⟨rfl, rfl, rfl, by decide⟩

/-- C2: the claim states that for a stable key, whenever the active
configuration's comparator judges old and new equal, `read` returns the
same reference.  The code violates this for any non-default configuration,
because of the same dead store described for C1:
with `props: "*"`, `compare: "shallow"`, two structurally equal records of
distinct identity are judged equal by the active comparator
(`shallowCompare`), yet the second read returns the new reference — the
consulted comparator is still the construction-time `defaultCompare`. -/
theorem c2_active_comparator_not_consulted :
    shallowCompare (JSVal.obj 1 [("a", JSVal.num 1)]) (JSVal.obj 2 [("a", JSVal.num 1)]) = true
    ∧ (getProp (update (createStableObject false)
          [("x", JSVal.obj 1 [("a", JSVal.num 1)])]
          ⟨some .all, some .shallow⟩) "x").1 = JSVal.obj 1 [("a", JSVal.num 1)]
    ∧ (getProp (update (getProp (update (createStableObject false)
          [("x", JSVal.obj 1 [("a", JSVal.num 1)])]
          ⟨some .all, some .shallow⟩) "x").2
          [("x", JSVal.obj 2 [("a", JSVal.num 1)])]
          ⟨some .all, some .shallow⟩) "x").1 = JSVal.obj 2 [("a", JSVal.num 1)]
    ∧ JSVal.obj 1 [("a", JSVal.num 1)] ≠ JSVal.obj 2 [("a", JSVal.num 1)] :=
  ⟨by decide, by decide, by decide, by decide⟩

/-- C3: for a key the consulted resolution marks as stable (in particular
every config-stable key) whose backing value is a function in each
generation read, the first read creates and caches a wrapper, a read after
any `update` that keeps the key function-valued returns the very same
wrapper value, and invoking the wrapper against the current state
dispatches to that generation's underlying function — the post-update
invocation runs the new function `f2` on the forwarded arguments, while
before the update it ran `f1`. -/
theorem c3_stable_function_wrapper (st : StableState) (p : String)
    (c : JSVal → JSVal → Bool) (opts : OptionsV)
    (object2 : List (String × JSVal)) (sem : Nat → List JSVal → JSVal)
    (args : List JSVal) (t1 f1 t2 f2 : Nat)
    (hreact : st.isReactProps = false)
    (hstable : st.refs.getCompareFnFromProp p = some c)
    (hfun1 : lookupD st.refs.object p = .fn t1 f1)
    (hcache : isFunctionV (lookupD st.cache p) = false)
    (hfun2 : lookupD object2 p = .fn t2 f2) :
    (getProp (update (getProp st p).2 object2 opts) p).1 = (getProp st p).1
    ∧ isFunctionV (getProp st p).1 = true
    ∧ invoke sem (getProp (update (getProp st p).2 object2 opts) p).2
        ((getProp st p).1) args = some (sem f2 args)
    ∧ invoke sem (getProp st p).2 ((getProp st p).1) args = some (sem f1 args) := by
  have hfun1' : isFunctionV (lookupD st.refs.object p) = true := by rw [hfun1]; rfl
  have hr1 := getProp_first_function_read st p c hreact hstable hfun1' hcache
  rw [hr1]
  simp only []
  have hc2 : lookupD (update ({ st with
      cache := (p, JSVal.wrapperFn st.fresh p) :: st.cache
      fresh := st.fresh + 1 }) object2 opts).cache p = JSVal.wrapperFn st.fresh p :=
    lookupD_cons_self _ _ _
  have hr2 := getProp_cached_function_read
    (update ({ st with
        cache := (p, JSVal.wrapperFn st.fresh p) :: st.cache
        fresh := st.fresh + 1 }) object2 opts) p c hreact hstable
    (by rw [show lookupD (update ({ st with
        cache := (p, JSVal.wrapperFn st.fresh p) :: st.cache
        fresh := st.fresh + 1 }) object2 opts).refs.object p = JSVal.fn t2 f2 from hfun2]; rfl)
    (by rw [hc2]; rfl)
  rw [hc2] at hr2
  rw [hr2]
  simp only []
  refine ⟨by trivial, by trivial, ?_, ?_⟩
  · unfold invoke
    simp only []
    rw [show lookupD (update ({ st with
        cache := (p, JSVal.wrapperFn st.fresh p) :: st.cache
        fresh := st.fresh + 1 }) object2 opts).refs.object p = JSVal.fn t2 f2 from hfun2]
  · unfold invoke
    simp only []
    rw [show lookupD ({ st with
        cache := (p, JSVal.wrapperFn st.fresh p) :: st.cache
        fresh := st.fresh + 1 } : StableState).refs.object p = JSVal.fn t1 f1 from hfun1]

/-- C4's claim is refuted here: the proxy handler has no `set` trap, so a
write to a key absent from the current backing record succeeds (`true`:
no `UnknownKeyError` — no such error exists in the code), and a write to
a present key is not visible on the next read, which still returns the
backing value. -/
theorem c4_counterexample :
    (setProp (update (createStableObject false) [("a", JSVal.num 1)] ⟨none, none⟩)
        "b" (JSVal.num 2)).2 = true
    ∧ (getProp (setProp (update (createStableObject false) [("a", JSVal.num 1)]
        ⟨none, none⟩) "a" (JSVal.num 5)).1 "a").1 = JSVal.num 1 :=
  ⟨rfl, by decide⟩

/-- C4 (amended): the accessor surface defines no write interception.
Writing any key — present or absent — always succeeds without raising any
error (the default `[[Set]]` lands on the hidden proxy target), and no
write is ever visible to a subsequent read of any key: reads consult only
the backing record and the cache. -/
theorem c4_writes_never_throw_never_visible (st : StableState) (p q : String) (v : JSVal) :
    (setProp st p v).2 = true
    ∧ (getProp (setProp st p v).1 q).1 = (getProp st q).1 :=
  ⟨rfl, getProp_fst_congr _ _ _ rfl rfl rfl rfl⟩

/-- C5's claim is refuted here: with a per-key map `props`, a key absent
from the map does not bypass caching — the resolution function assigns it
`createCompareFn(undefined)`, i.e. `defaultCompare`. -/
theorem c5_counterexample :
    createComparerFactory (.map [("a", PropMode.tru)]) none "b"
        = some (createCompareFn none)
    ∧ createComparerFactory (.map [("a", PropMode.tru)]) none "b" ≠ none :=
  ⟨rfl, fun h => Option.noConfusion h⟩

/-- C5 (amended): under a per-key map configuration, a key absent from the
map is assigned the default comparator (`createCompareFn(undefined)`), so
comparator-and-cache handling still applies to it; only the key-list form
of `props` bypasses caching for unlisted keys. -/
theorem c5_map_absent_key_gets_default (m : List (String × PropMode))
    (mode : Option CompareOpt) (p : String) (ks : List String)
    (hm : lookupPM m p = none) (hk : ks.contains p = false) :
    createComparerFactory (.map m) mode p = some (createCompareFn none)
    ∧ createComparerFactory (.list ks) mode p = none := by
  constructor
  · unfold createComparerFactory
    simp [hm]
  · unfold createComparerFactory
    simp only []
    rw [hk]
    rfl

theorem c5_map_absent_key_gets_default_witness :
    createComparerFactory (.map [("a", PropMode.tru)]) none "b"
        = some (createCompareFn none)
    ∧ createComparerFactory (.list ["a"]) none "b" = none :=
  c5_map_absent_key_gets_default [("a", PropMode.tru)] none "b" ["a"] rfl rfl

/-- C6's claim is refuted here: the object returned by `createStableObject`
exposes exactly `proxy` and `update`; there is no `merge` operation. -/
theorem c6_counterexample : "merge" ∉ stableObjectApiKeys := by decide

/-- C6 (amended): the Stable View exposes only `proxy` and `update` — no
`merge` — and `update` replaces the backing record wholesale: after an
update, a key absent from the new object reads as `undefined`, whatever the
previous record held (no union of old and new records is formed). -/
theorem c6_no_merge_update_replaces (st : StableState)
    (object : List (String × JSVal)) (opts : OptionsV) (p : String)
    (hres : st.refs.getCompareFnFromProp = createComparerFactory .all none)
    (habs : lookupD object p = JSVal.undef) :
    "merge" ∉ stableObjectApiKeys
    ∧ (update st object opts).refs.object = object
    ∧ (getProp (update st object opts) p).1 = JSVal.undef :=
  ⟨by decide, rfl, getProp_after_update_absent st object opts p hres habs⟩

theorem c6_no_merge_update_replaces_witness :
    "merge" ∉ stableObjectApiKeys
    ∧ (update (update (createStableObject false) [("a", JSVal.num 1)] ⟨none, none⟩)
        [("b", JSVal.num 2)] ⟨none, none⟩).refs.object = [("b", JSVal.num 2)]
    ∧ (getProp (update (update (createStableObject false) [("a", JSVal.num 1)]
        ⟨none, none⟩) [("b", JSVal.num 2)] ⟨none, none⟩) "a").1 = JSVal.undef :=
  c6_no_merge_update_replaces
    (update (createStableObject false) [("a", JSVal.num 1)] ⟨none, none⟩)
    [("b", JSVal.num 2)] ⟨none, none⟩ "a" rfl rfl

/-- C7's claim is refuted here: on a view created with
`isReactProps = false` — which is what `useStable`'s `createStableObject()`
produces — the key `"key"` does not bypass caching: after caching one date
instance and updating to a distinct instance with the same timestamp, the
read returns the cached instance, not the live backing value. -/
theorem c7_counterexample :
    (getProp (update (getProp (update (createStableObject false)
        [("key", JSVal.date 1 0)] ⟨none, none⟩) "key").2
        [("key", JSVal.date 2 0)] ⟨none, none⟩) "key").1 = JSVal.date 1 0
    ∧ lookupD (update (getProp (update (createStableObject false)
        [("key", JSVal.date 1 0)] ⟨none, none⟩) "key").2
        [("key", JSVal.date 2 0)] ⟨none, none⟩).refs.object "key" = JSVal.date 2 0
    ∧ JSVal.date 1 0 ≠ JSVal.date 2 0 :=
  ⟨by decide, by decide, by decide⟩

/-- C7 (amended): reads of `"key"`, `"ref"` and underscore-prefixed keys
return the live backing value unconditionally, bypassing comparator
resolution and the cache — but only on views constructed with
`isReactProps = true` (the `stable` component wrapper); `useStable` views
are constructed with the default `false` and apply normal comparator
policy to those keys. -/
theorem c7_react_props_bypass (st : StableState) (p : String)
    (hreact : st.isReactProps = true)
    (hkey : (p == "key" || p == "ref" || firstCharUnderscore p) = true) :
    getProp st p = (lookupD st.refs.object p, st) :=
  getProp_react_bypass st p hreact hkey

theorem c7_react_props_bypass_witness :
    getProp (update (createStableObject true) [("key", JSVal.num 7)] ⟨none, none⟩) "key"
      = (lookupD (update (createStableObject true) [("key", JSVal.num 7)]
            ⟨none, none⟩).refs.object "key",
         update (createStableObject true) [("key", JSVal.num 7)] ⟨none, none⟩) :=
  c7_react_props_bypass _ "key" rfl rfl

/-- C8: two distinct Date instances (distinct identity tags) compare by
timestamp under the default, shallow and deep comparator modes: the
comparison result is exactly `time1 == time2` for all three
`createCompareFn` modes. -/
theorem c8_dates_compare_by_timestamp (t1 t2 : Nat) (x y : Int) (hdist : t1 ≠ t2) :
    createCompareFn none (.date t1 x) (.date t2 y) = (x == y)
    ∧ createCompareFn (some .shallow) (.date t1 x) (.date t2 y) = (x == y)
    ∧ createCompareFn (some .deep) (.date t1 x) (.date t2 y) = (x == y) := by
  have hbeq : beqVal (.date t1 x) (.date t2 y) = false := by
    cases hb : beqVal (.date t1 x) (.date t2 y)
    · rfl
    · simp only [beqVal, Bool.and_eq_true, beq_iff_eq] at hb
      exact absurd hb.1 hdist
  refine ⟨?_, ?_, ?_⟩
  · show defaultCompare (.date t1 x) (.date t2 y) = (x == y)
    unfold defaultCompare defaultCompareGen
    rw [hbeq]
    rfl
  · show shallowCompare (.date t1 x) (.date t2 y) = (x == y)
    exact shallowCompare_date_date t1 t2 x y
  · show deepCompare (.date t1 x) (.date t2 y) = (x == y)
    rw [deepCompare]
    rw [hbeq]
    rfl

theorem c8_dates_compare_by_timestamp_witness :
    (createCompareFn none (.date 1 5) (.date 2 5) = ((5 : Int) == 5)
     ∧ createCompareFn (some .shallow) (.date 1 5) (.date 2 5) = ((5 : Int) == 5)
     ∧ createCompareFn (some .deep) (.date 1 5) (.date 2 5) = ((5 : Int) == 5))
    ∧ (createCompareFn none (.date 1 5) (.date 2 9) = ((5 : Int) == 9)
     ∧ createCompareFn (some .shallow) (.date 1 5) (.date 2 9) = ((5 : Int) == 9)
     ∧ createCompareFn (some .deep) (.date 1 5) (.date 2 9) = ((5 : Int) == 9)) :=
  ⟨c8_dates_compare_by_timestamp 1 2 5 5 (by decide),
   c8_dates_compare_by_timestamp 1 2 5 9 (by decide)⟩

/-- C9's claim of unconditional commutativity is refuted here: a plain
empty record against a Date takes the record path (empty key union, so
`true`), while the swapped operands take the date fast path (`false`). -/
theorem c9_counterexample :
    ¬ (∀ a b : JSVal, shallowCompare a b = shallowCompare b a) := by
  intro h
  exact absurd (h (.obj 1 []) (.date 2 0)) (by decide)

/-- C9 (amended): `shallowCompare` is commutative on every pair whose
operands have the same top-level shape class (both dates, both regexes,
both arrays, both records, both null), and on every pair where at least
one operand is not a `typeof`-object value; commutativity can fail only
between `typeof`-object operands of different shape classes (e.g. a Date
against a plain record, as in the counterexample). -/
theorem c9_shallowCompare_comm_on_matching_shapes (a b : JSVal)
    (h : shapeClass a = shapeClass b ∨ typeofObject a = false ∨ typeofObject b = false) :
    shallowCompare a b = shallowCompare b a :=
  shallowCompare_comm_cond a b h

theorem c9_shallowCompare_comm_on_matching_shapes_witness :
    shallowCompare (.date 1 0) (.date 2 5) = shallowCompare (.date 2 5) (.date 1 0)
    ∧ shallowCompare (.num 3) (.obj 1 []) = shallowCompare (.obj 1 []) (.num 3) :=
  ⟨c9_shallowCompare_comm_on_matching_shapes _ _ (Or.inl rfl),
   c9_shallowCompare_comm_on_matching_shapes _ _ (Or.inr (Or.inl rfl))⟩

/-- C10's claim of extensional equality of the two bundled `shallowCompare`
implementations is refuted here: on unequal primitives the first copy
returns `false` while the second returns `true`; on two distinct Dates
with different timestamps the first returns `false`, the second `true`;
and on `null` the second throws a `TypeError` (`none`) where the first
returns `false`. -/
theorem c10_counterexample :
    shallowCompare (.num 1) (.num 2) = false
    ∧ shallowCompareV2 (.num 1) (.num 2) = some true
    ∧ shallowCompare (.date 1 0) (.date 2 5) = false
    ∧ shallowCompareV2 (.date 1 0) (.date 2 5) = some true
    ∧ shallowCompare .null (.num 1) = false
    ∧ shallowCompareV2 .null (.num 1) = none :=
  ⟨by decide, by decide, by decide, by decide, by decide, by decide⟩

/-- C10 (amended): the two copies are not extensionally equal (see the
counterexample); they do agree — and the second copy does not throw — on
every pair of truthy non-date non-regex objects, i.e. whenever both
operands are arrays or plain records, where the second copy returns
exactly `some` of the first copy's result. -/
theorem c10_copies_agree_on_objects (a b : JSVal)
    (ha : isArrOrObj a = true) (hb : isArrOrObj b = true) :
    shallowCompareV2 a b = some (shallowCompare a b) :=
  shallowCompareV2_agrees a b ha hb

theorem c10_copies_agree_on_objects_witness :
    shallowCompareV2 (.obj 1 [("a", JSVal.num 1)]) (.obj 2 [("a", JSVal.num 1)])
      = some (shallowCompare (.obj 1 [("a", JSVal.num 1)]) (.obj 2 [("a", JSVal.num 1)]))
    ∧ shallowCompareV2 (.arr 1 [JSVal.num 1]) (.obj 2 [])
      = some (shallowCompare (.arr 1 [JSVal.num 1]) (.obj 2 [])) :=
  ⟨c10_copies_agree_on_objects _ _ rfl rfl,
   c10_copies_agree_on_objects _ _ rfl rfl⟩

theorem c3_stable_function_wrapper_witness :
    (getProp (update (getProp (update (createStableObject false)
          [("onClick", JSVal.fn 0 1)] ⟨none, none⟩) "onClick").2
        [("onClick", JSVal.fn 5 2)] ⟨none, none⟩) "onClick").1
      = (getProp (update (createStableObject false)
          [("onClick", JSVal.fn 0 1)] ⟨none, none⟩) "onClick").1
    ∧ isFunctionV (getProp (update (createStableObject false)
          [("onClick", JSVal.fn 0 1)] ⟨none, none⟩) "onClick").1 = true
    ∧ invoke (fun fid _ => JSVal.num fid)
        (getProp (update (getProp (update (createStableObject false)
            [("onClick", JSVal.fn 0 1)] ⟨none, none⟩) "onClick").2
          [("onClick", JSVal.fn 5 2)] ⟨none, none⟩) "onClick").2
        ((getProp (update (createStableObject false)
            [("onClick", JSVal.fn 0 1)] ⟨none, none⟩) "onClick").1) []
        = some (JSVal.num 2)
    ∧ invoke (fun fid _ => JSVal.num fid)
        (getProp (update (createStableObject false)
            [("onClick", JSVal.fn 0 1)] ⟨none, none⟩) "onClick").2
        ((getProp (update (createStableObject false)
            [("onClick", JSVal.fn 0 1)] ⟨none, none⟩) "onClick").1) []
        = some (JSVal.num 1) :=
  c3_stable_function_wrapper
    (update (createStableObject false) [("onClick", JSVal.fn 0 1)] ⟨none, none⟩)
    "onClick" (createCompareFn none) ⟨none, none⟩
    [("onClick", JSVal.fn 5 2)] (fun fid _ => JSVal.num fid) [] 0 1 5 2
    rfl rfl (by decide) (by decide) (by decide)

theorem attach_all_eq {α : Type} (l : List α) (f : α → Bool) :
    (l.attach.all fun p => f p.1) = l.all f := by
  cases h1 : l.attach.all (fun p => f p.1) <;> cases h2 : l.all f <;> try rfl
  · exfalso
    rw [List.all_eq_true] at h2
    have h3 : l.attach.all (fun p => f p.1) = true :=
      List.all_eq_true.2 (fun x _ => h2 x.1 x.2)
    rw [h1] at h3
    cases h3
  · exfalso
    rw [List.all_eq_true] at h1
    have h3 : l.all f = true :=
      List.all_eq_true.2 (fun x hx => h1 ⟨x, hx⟩ (List.mem_attach l ⟨x, hx⟩))
    rw [h2] at h3
    cases h3

theorem attach_all_deep (l : List (JSVal × JSVal)) :
    (l.attach.all fun p => deepCompare p.1.1 p.1.2)
      = l.all fun p => deepCompare p.1 p.2 :=
  attach_all_eq l (fun p => deepCompare p.1 p.2)

/-- Faithfulness of the well-founded `deepCompare` definition above: it
equals the source composition `shallowCompare(a, b, deepCompare)`, i.e.
`defaultCompare` with `objectCompare` set to the array/record walk whose
`valueCompare` is `deepCompare` itself. -/
theorem deepCompare_eq_composition (a b : JSVal) :
    deepCompare a b = defaultCompareGen (some (shallowObjectCompare deepCompare)) a b := by
  rw [deepCompare.eq_def]
  unfold defaultCompareGen
  cases hb : beqVal a b
  · cases a <;> cases b <;>
      first
      | rfl
      | (exact Bool.noConfusion hb)
      | (simp only []; rw [attach_all_deep]; rfl)
  · rfl
